import Mathlib

/-!
Shallow embedding of the blocking request adapter of rust-s3
(src/s3/src/blocking.rs): the `AttoRequest` implementation of the
`Request` trait.  Pure Rust control flow is translated into total Lean
functions; the external HTTP transport is modelled as an explicit input
(the response the wire would yield), and the outcome of a call is a sum
of normal return, returned error, and Rust panic.  Side effects that
matter to the specification (which requests were sent, which writes hit
the caller-supplied sink) are made explicit as traces in the result.
-/

namespace RustS3

/-- Byte sequences are lists of naturals (each byte a value below 256). -/
abbrev Bytes := List Nat

/-- Bytes of a Rust string, modelled at code-point level; every string this
development feeds through it is ASCII, where code points and UTF-8 bytes
coincide. -/
def strBytes (s : String) : Bytes := s.data.map Char.toNat

/-- String built from a list of ASCII byte values. -/
def asciiString (v : Bytes) : String := String.mk (v.map Char.ofNat)

/-- Model of the S3Error struct of this crate (error.rs): the blocking
adapter only ever fills the description field, so the source field is
dropped here. -/
structure S3Error where
  description : Option String
  data : Option String
deriving DecidableEq, Repr

/-- Error value built from a string, matching the From instance for string
slices used at line 118 of blocking.rs (description set, data empty). -/
def S3Error.fromStr (s : String) : S3Error := ⟨some s, none⟩

/-- Result of running a Rust call: a normal value, a returned error, or a
panic (Rust unwrap or a panicking library call). -/
inductive Outcome (α : Type) where
  | ok : α → Outcome α
  | err : S3Error → Outcome α
  | panic : String → Outcome α
deriving DecidableEq, Repr

/-- True when the outcome is a returned error (not a panic, not success). -/
def Outcome.isErr {α : Type} [DecidableEq α] : Outcome α → Bool
  | .err _ => true
  | _ => false

/-- Model of attohttpc Response: status code, header collection (name and
raw value bytes), and the body byte stream, already materialized. -/
structure Response where
  status : Nat
  headers : List (String × Bytes)
  body : Bytes
deriving DecidableEq, Repr

/-- The HttpMethod enum of command.rs, as matched on at lines 105 to 111 of
blocking.rs. -/
inductive HttpMethod where
  | get | delete | put | post | head
deriving DecidableEq, Repr

/-- The transport method chosen on the attohttpc session: session.get,
session.delete, session.put, session.post, session.head. -/
inductive TransportMethod where
  | GET | DELETE | PUT | POST | HEAD
deriving DecidableEq, Repr

/-- Fixed verb table of blocking.rs lines 105 to 111: the match sending a
command verb to the corresponding attohttpc session method. -/
def methodOf : HttpMethod → TransportMethod
  | .get => .GET
  | .delete => .DELETE
  | .put => .PUT
  | .post => .POST
  | .head => .HEAD

/-- One part entry of a multipart completion descriptor. -/
structure Part where
  part_number : Nat
  etag : String
deriving DecidableEq, Repr

/-- Multipart completion descriptor (command.rs, not under src/). -/
structure CompleteMultipartUploadData where
  parts : List Part
deriving DecidableEq, Repr

/-- Modelled from the spec: the Display serialization of the multipart
completion descriptor lives in command.rs, which is not under src/; the
spec requires a deterministic textual wire representation in the format
the storage service expects for completing a multipart upload. -/
def completeMpuToString (d : CompleteMultipartUploadData) : String :=
  "<CompleteMultipartUpload>"
    ++ String.join (d.parts.map fun p =>
        "<Part><PartNumber>" ++ toString p.part_number
          ++ "</PartNumber><ETag>" ++ p.etag ++ "</ETag></Part>")
    ++ "</CompleteMultipartUpload>"

/-- The closed Command enumeration (command.rs, not under src/): the
variants blocking.rs matches on by name, plus the read, delete, head and
list style variants the spec describes as carrying no payload. -/
inductive Command where
  | getObject
  | getObjectTagging
  | listBucket
  | headObject
  | deleteObject
  | deleteObjectTagging
  | initiateMultipartUpload
  | abortMultipartUpload
  | putObject (content : Bytes)
  | putObjectTagging (tags : String)
  | uploadPart (content : Bytes)
  | completeMultipartUpload (data : CompleteMultipartUploadData)
deriving DecidableEq, Repr

/-- Modelled from the spec: Command::http_verb lives in command.rs, which
is not under src/; the spec gives the table read to GET, delete to DELETE,
store to PUT, composite and completion actions to POST, metadata-only
probe to HEAD. -/
def Command.http_verb : Command → HttpMethod
  | .getObject | .getObjectTagging | .listBucket => .get
  | .headObject => .head
  | .deleteObject | .deleteObjectTagging | .abortMultipartUpload => .delete
  | .putObject _ | .putObjectTagging _ | .uploadPart _ => .put
  | .initiateMultipartUpload | .completeMultipartUpload _ => .post

/-- Whether the variant carries a request payload (raw content, tag set, or
completion descriptor). -/
def carriesPayload : Command → Bool
  | .putObject _ | .putObjectTagging _ | .uploadPart _
  | .completeMultipartUpload _ => true
  | _ => false

/-- Payload extraction of blocking.rs lines 85 to 97: PutObject and
UploadPart yield their content verbatim, PutObjectTagging yields the byte
serialization of its tag string, CompleteMultipartUpload serializes its
descriptor to text and encodes it, every other variant yields the empty
byte sequence. -/
def extractContent : Command → Bytes
  | .putObject content => content
  | .putObjectTagging tags => strBytes tags
  | .uploadPart content => content
  | .completeMultipartUpload data => strBytes (completeMpuToString data)
  | _ => []

/-- Valid bytes of an HTTP header name, per the http crate table used by
HeaderName::from_bytes: digits, letters, and the token symbols. -/
def isTokenChar (c : Nat) : Bool :=
  (decide (48 ≤ c) && decide (c ≤ 57))
    || (decide (97 ≤ c) && decide (c ≤ 122))
    || (decide (65 ≤ c) && decide (c ≤ 90))
    || (c == 33) || (c == 35) || (c == 36) || (c == 37) || (c == 38)
    || (c == 39) || (c == 42) || (c == 43) || (c == 45) || (c == 46)
    || (c == 94) || (c == 95) || (c == 96) || (c == 124) || (c == 126)

/-- Validity of a header name for HeaderName::from_bytes (http crate):
nonempty and made of token characters only. -/
def validHeaderName (s : String) : Bool :=
  (!(s.data.isEmpty)) && s.data.all (fun c => isTokenChar c.toNat)

/-- Validity of a header value for HeaderValue (http crate): every byte at
least 32 and distinct from 127, or the horizontal tab. -/
def validHeaderValue (s : String) : Bool :=
  s.data.all (fun c =>
    (decide (32 ≤ c.toNat) && decide (c.toNat ≠ 127)) || c.toNat == 9)

/-- The header attachment loop of blocking.rs lines 101 to 103: each pair
runs HeaderName::from_bytes(...).unwrap(), which panics on an invalid
name, then session.header, which panics on an invalid value; the result
is the panic message of the first offending pair, or none when the loop
finishes. -/
def attachHeaders : List (String × String) → Option String
  | [] => none
  | (n, v) :: rest =>
    if !(validHeaderName n) then
      some "called Result::unwrap on an Err value: InvalidHeaderName"
    else if !(validHeaderValue v) then
      some "invalid header value"
    else attachHeaders rest

/-- Lossy text decoding of a body, modelling attohttpc Response::text with
its default charset handling: a total byte-wise decode. -/
def decodeText (b : Bytes) : String := String.mk (b.map Char.ofNat)

/-- The error message built at blocking.rs lines 119 to 124 when the
fail-on-err feature is active and the status is at least 400. -/
def statusFailMsg (status : Nat) (body : Bytes) : String :=
  "Request failed with code " ++ toString status ++ "\n" ++ decodeText body

/-- One request as handed to the transport: the session method chosen from
the verb table, the attached headers, and the body bytes. -/
structure SentRequest where
  method : TransportMethod
  headers : List (String × String)
  body : Bytes
deriving DecidableEq, Repr

/-- The response primitive of blocking.rs lines 77 to 129.  Inputs that the
source obtains from collaborators are explicit parameters: strict is the
compile-time fail-on-err feature, headersRes is the outcome of
self.headers() (request_trait.rs, outside src/), command is the command of
the request, and wire is what the transport yields for the one send this
call can make (a response, or a transport error message).  The result
pairs the outcome with the trace of requests actually handed to the
transport. -/
def response (strict : Bool) (headersRes : Except S3Error (List (String × String)))
    (command : Command) (wire : Except String Response) :
    Outcome Response × List SentRequest :=
  match headersRes with
  | .error e => (.err e, [])
  | .ok headers =>
    let content := extractContent command
    match attachHeaders headers with
    | some msg => (.panic msg, [])
    | none =>
      let sent : SentRequest :=
        ⟨methodOf command.http_verb, headers, content⟩
      match wire with
      | .error e => (.err ⟨some e, none⟩, [sent])
      | .ok resp =>
        if strict && decide (400 ≤ resp.status) then
          (.err (S3Error.fromStr (statusFailMsg resp.status resp.body)), [sent])
        else (.ok resp, [sent])

/-- ASCII lowercase of one character. -/
def lowerChar (c : Char) : Char :=
  if 65 ≤ c.toNat ∧ c.toNat ≤ 90 then Char.ofNat (c.toNat + 32) else c

/-- ASCII lowercase of a string, as a character list. -/
def lowerKey (s : String) : List Char := s.data.map lowerChar

/-- Case-insensitive header lookup, modelling HeaderMap::get of the http
crate (names match up to ASCII case). -/
def headerGet (hs : List (String × Bytes)) (key : String) : Option Bytes :=
  (hs.find? (fun p => lowerKey p.1 == lowerKey key)).map (fun p => p.2)

/-- Visible ASCII test of HeaderValue::to_str in the http crate: byte at
least 32 and below 127, or horizontal tab. -/
def isVisibleAscii (b : Nat) : Bool :=
  (decide (32 ≤ b) && decide (b < 127)) || (b == 9)

/-- HeaderValue::to_str of the http crate: yields the value as a string
exactly when every byte is visible ASCII. -/
def toStr (v : Bytes) : Option String :=
  if v.all isVisibleAscii then some (asciiString v) else none

/-- Error produced when the question mark operator propagates the
ToStrError of a failed HeaderValue::to_str at blocking.rs line 141. -/
def headerToStrError : S3Error :=
  ⟨some "failed to convert header to a str", none⟩

/-- response_data of blocking.rs lines 131 to 145: run response, read the
status, clone the headers, look up ETag, buffer the body; when the etag
flag is set and the header is present, replace the body bytes by the
bytes of the header value decoded with to_str (propagating its error),
otherwise return the body unchanged. -/
def response_data (strict : Bool) (headersRes : Except S3Error (List (String × String)))
    (command : Command) (wire : Except String Response) (etag : Bool) :
    Outcome (Bytes × Nat) × List SentRequest :=
  match response strict headersRes command wire with
  | (.err e, tr) => (.err e, tr)
  | (.panic m, tr) => (.panic m, tr)
  | (.ok r, tr) =>
    let status_code := r.status
    let etag_header := headerGet r.headers "ETag"
    let body_vec := r.body
    if etag then
      match etag_header with
      | some v =>
        match toStr v with
        | some s => (.ok (strBytes s, status_code), tr)
        | none => (.err headerToStrError, tr)
      | none => (.ok (body_vec, status_code), tr)
    else (.ok (body_vec, status_code), tr)

/-- response_data_to_writer of blocking.rs lines 147 to 156: run response,
read the status, buffer the whole body, then hand it to the caller sink
in a single write_all call, propagating a sink failure; the third
component records every write call made to the sink. -/
def response_data_to_writer (strict : Bool)
    (headersRes : Except S3Error (List (String × String))) (command : Command)
    (wire : Except String Response) (sink : Bytes → Except String Unit) :
    Outcome Nat × List SentRequest × List Bytes :=
  match response strict headersRes command wire with
  | (.err e, tr) => (.err e, tr, [])
  | (.panic m, tr) => (.panic m, tr, [])
  | (.ok r, tr) =>
    let status_code := r.status
    let stream := r.body
    match sink stream with
    | .error e => (.err ⟨some e, none⟩, tr, [stream])
    | .ok _ => (.ok status_code, tr, [stream])

/-- response_header of blocking.rs lines 158 to 163: run response, read
the status, clone the headers, and return both; the body is never
touched. -/
def response_header (strict : Bool)
    (headersRes : Except S3Error (List (String × String))) (command : Command)
    (wire : Except String Response) :
    Outcome (List (String × Bytes) × Nat) × List SentRequest :=
  match response strict headersRes command wire with
  | (.err e, tr) => (.err e, tr)
  | (.panic m, tr) => (.panic m, tr)
  | (.ok r, tr) => (.ok (r.headers, r.status), tr)

/-- Modelled from the spec: the region and scheme configuration lives in
region.rs and bucket.rs, outside src/; a region parsed from a plain name
has no explicit scheme, while a region written with an explicit scheme
keeps it as an override. -/
structure Region where
  schemeOverride : Option String
  host : String
deriving DecidableEq, Repr

/-- Modelled from the spec: parsing a custom region string, as exercised by
the tests of blocking.rs; a leading explicit scheme becomes an override,
otherwise no scheme is recorded. -/
def parseRegion (s : String) : Region :=
  if ("http://".data).isPrefixOf s.data then
    ⟨some "http", String.mk (s.data.drop 7)⟩
  else if ("https://".data).isPrefixOf s.data then
    ⟨some "https", String.mk (s.data.drop 8)⟩
  else ⟨none, s⟩

/-- Bucket with its region and path-style flag (bucket.rs, outside src/). -/
structure BucketModel where
  name : String
  region : Region
  pathStyle : Bool
deriving DecidableEq, Repr

/-- Parts of a derived URL. -/
structure UrlParts where
  scheme : String
  host : String
  path : String
deriving DecidableEq, Repr

/-- Modelled from the spec: the URL builder of request_trait.rs, outside
src/; the scheme defaults to the secure scheme when the region records no
override, the host is the bucket-prefixed region host in virtual-host
style and the bare region host in path style. -/
def bucketUrl (b : BucketModel) (path : String) : UrlParts :=
  { scheme := b.region.schemeOverride.getD "https"
    host := if b.pathStyle then b.region.host else b.name ++ "." ++ b.region.host
    path := path }

/-! Sample values used by witnesses. -/

/-- Sample response carrying an ETag header with a visible ASCII value. -/
def sampleResp : Response := ⟨200, [("ETag", strBytes "abc123")], strBytes "hello"⟩

/-- Sample response whose ETag header value holds a byte outside visible
ASCII, so HeaderValue::to_str fails on it. -/
def badEtagResp : Response := ⟨200, [("ETag", [200])], [104, 105]⟩

/-- Sample error response with status 404 and a textual body. -/
def err404Resp : Response := ⟨404, [], strBytes "Not Found"⟩

/-- Header list whose first name holds a space, which is not a token
character, so HeaderName::from_bytes rejects it. -/
def badNameHeaders : List (String × String) := [("bad name", "v")]

/-- Sink that accepts every write. -/
def okSink : Bytes → Except String Unit := fun _ => .ok ()

/-- Sink that rejects every write. -/
def failSink : Bytes → Except String Unit := fun _ => .error "sink closed"

/-! Helper lemmas. -/

/-- Round trip of Char.ofNat and Char.toNat on byte values below 127. -/
lemma char_toNat_ofNat_lt : ∀ b : Nat, b < 127 → (Char.ofNat b).toNat = b := by
  decide

/-- A visible ASCII byte is below 127. -/
lemma isVisibleAscii_lt {b : Nat} (h : isVisibleAscii b = true) : b < 127 := by
  simp only [isVisibleAscii, Bool.or_eq_true, Bool.and_eq_true, decide_eq_true_eq,
    beq_iff_eq] at h
  omega

/-- Encoding the ASCII string of a list of visible ASCII bytes gives the
bytes back. -/
lemma strBytes_asciiString {v : Bytes} (h : v.all isVisibleAscii = true) :
    strBytes (asciiString v) = v := by
  induction v with
  | nil => rfl
  | cons b t ih =>
    simp only [List.all_cons, Bool.and_eq_true] at h
    simp only [strBytes, asciiString, List.map_cons] at *
    have hb : (Char.ofNat b).toNat = b :=
      char_toNat_ofNat_lt b (isVisibleAscii_lt h.1)
    simpa [hb] using ih h.2

/-- Characterization of a successful HeaderValue::to_str. -/
lemma toStr_eq_some {v : Bytes} {s : String} (h : toStr v = some s) :
    v.all isVisibleAscii = true ∧ s = asciiString v := by
  by_cases hv : v.all isVisibleAscii
  · refine ⟨hv, ?_⟩
    simp only [toStr, hv, if_true, Option.some.injEq] at h
    exact h.symm
  · simp [toStr, hv] at h

/-- The bytes of the string produced by a successful to_str are the
original header value bytes. -/
lemma strBytes_of_toStr {v : Bytes} {s : String} (h : toStr v = some s) :
    strBytes s = v := by
  obtain ⟨hv, hs⟩ := toStr_eq_some h
  rw [hs]
  exact strBytes_asciiString hv

/-- A header list containing an invalid name or value makes the attach loop
panic with some message. -/
lemma attachHeaders_some_of_invalid : ∀ hs : List (String × String),
    (∃ p ∈ hs, validHeaderName p.1 = false ∨ validHeaderValue p.2 = false) →
    ∃ m, attachHeaders hs = some m := by
  intro hs
  induction hs with
  | nil => rintro ⟨p, hmem, _⟩; simp at hmem
  | cons a t ih =>
    rintro ⟨p, hmem, hbad⟩
    by_cases h1 : validHeaderName a.1
    · by_cases h2 : validHeaderValue a.2
      · have hpt : p ∈ t := by
          rcases List.mem_cons.mp hmem with heq | ht
          · subst heq
            rcases hbad with hb | hb
            · rw [h1] at hb; cases hb
            · rw [h2] at hb; cases hb
          · exact ht
        obtain ⟨m, hm⟩ := ih ⟨p, hpt, hbad⟩
        exact ⟨m, by simp [attachHeaders, h1, h2, hm]⟩
      · exact ⟨"invalid header value", by simp [attachHeaders, h1, h2]⟩
    · exact ⟨"called Result::unwrap on an Err value: InvalidHeaderName",
        by simp [attachHeaders, h1]⟩

/-! Claim theorems. -/

/-- C1, counterexample: the claim as stated is false on the code.  At a
response whose ETag header is present but holds the non visible ASCII
byte 200, response_data with the etag flag does not return the header
value with the status (it propagates the to_str error instead). -/
theorem c1_counterexample :
    (response_data false (.ok []) .getObject (.ok badEtagResp) true).1
      ≠ .ok ([200], 200) := by decide

/-- C1, amended: whenever the response primitive yields a response, calling
response_data with the etag flag returns the value bytes of the ETag
header (looked up case-insensitively) together with the status code when
that header is present and its value converts to a visible ASCII string;
when the header is absent it returns the full body bytes unchanged, as a
silent fallback with no error. -/
theorem c1_amended_etag_projection :
    ∀ strict hres cmd wire r tr,
    response strict hres cmd wire = (.ok r, tr) →
    (∀ v s, headerGet r.headers "ETag" = some v → toStr v = some s →
      (response_data strict hres cmd wire true).1 = .ok (v, r.status))
    ∧ (headerGet r.headers "ETag" = none →
      (response_data strict hres cmd wire true).1 = .ok (r.body, r.status)) := by
  intro strict hres cmd wire r tr hresp
  constructor
  · intro v s hget hstr
    simp only [response_data, hresp, hget, hstr]
    rw [strBytes_of_toStr hstr]
    simp
  · intro hget
    simp only [response_data, hresp, hget]
    simp

/-- C1, witness: on a concrete response with header ETag abc123 and status
200, the amended theorem yields exactly those value bytes and status. -/
theorem c1_witness :
    (response_data false (.ok []) .getObject (.ok sampleResp) true).1
      = .ok (strBytes "abc123", 200) :=
  (c1_amended_etag_projection false (.ok []) .getObject (.ok sampleResp)
      sampleResp [⟨.GET, [], []⟩] (by decide)).1
    (strBytes "abc123") "abc123" (by decide) (by decide)

/-- C10: when the response primitive yields a response whose ETag header is
present but not convertible to a visible ASCII string, response_data with
the etag flag fails with the to_str conversion error; the silent
full-body fallback is reserved for an absent header. -/
theorem c10_etag_to_str_failure :
    ∀ strict hres cmd wire r tr v,
    response strict hres cmd wire = (.ok r, tr) →
    headerGet r.headers "ETag" = some v → toStr v = none →
    (response_data strict hres cmd wire true).1 = .err headerToStrError := by
  intro strict hres cmd wire r tr v hresp hget hstr
  simp only [response_data, hresp, hget, hstr]
  simp

/-- C10, witness: at a concrete response whose ETag value holds byte 200,
response_data with the etag flag returns the conversion error. -/
theorem c10_witness :
    (response_data false (.ok []) .getObject (.ok badEtagResp) true).1
      = .err headerToStrError :=
  c10_etag_to_str_failure false (.ok []) .getObject (.ok badEtagResp)
    badEtagResp [⟨.GET, [], []⟩] [200] (by decide) (by decide) (by decide)

/-- C2: with the header attachment succeeding and the transport yielding a
response, the Permissive build (fail-on-err off) returns every response
as data regardless of status; the Strict build errors on every status at
least 400 with the message carrying the numeric status and the body
decoded as text, and returns every response with status below 400
normally. -/
theorem c2_failure_policy :
    ∀ (hs : List (String × String)) (cmd : Command) (r : Response),
    attachHeaders hs = none →
    (response false (.ok hs) cmd (.ok r)).1 = .ok r
    ∧ (400 ≤ r.status →
        (response true (.ok hs) cmd (.ok r)).1
          = .err (S3Error.fromStr (statusFailMsg r.status r.body)))
    ∧ (r.status < 400 → (response true (.ok hs) cmd (.ok r)).1 = .ok r) := by
  intro hs cmd r hat
  refine ⟨?_, ?_, ?_⟩
  · simp [response, hat]
  · intro h400
    simp [response, hat, h400]
  · intro hlt
    have : ¬ 400 ≤ r.status := by omega
    simp [response, hat, this]

/-- C2, witness: a concrete 404 response is returned as data in Permissive
mode and turned into the formatted status error in Strict mode. -/
theorem c2_witness :
    (response false (.ok []) .getObject (.ok err404Resp)).1 = .ok err404Resp
    ∧ (response true (.ok []) .getObject (.ok err404Resp)).1
        = .err (S3Error.fromStr (statusFailMsg 404 (strBytes "Not Found"))) :=
  ⟨(c2_failure_policy [] .getObject err404Resp rfl).1,
    (c2_failure_policy [] .getObject err404Resp rfl).2.1 (by decide)⟩

/-- C3: payload extraction is total over the closed command set; PutObject
and UploadPart yield their content byte-identically, PutObjectTagging
yields the bytes of its tag set, CompleteMultipartUpload yields the bytes
of the deterministic textual serialization of its descriptor, and every
variant carrying no payload yields the empty byte sequence. -/
theorem c3_payload_extraction :
    (∀ content, extractContent (.putObject content) = content)
    ∧ (∀ tags, extractContent (.putObjectTagging tags) = strBytes tags)
    ∧ (∀ content, extractContent (.uploadPart content) = content)
    ∧ (∀ d, extractContent (.completeMultipartUpload d)
        = strBytes (completeMpuToString d))
    ∧ (∀ cmd, carriesPayload cmd = false → extractContent cmd = []) := by
  refine ⟨fun _ => rfl, fun _ => rfl, fun _ => rfl, fun _ => rfl, ?_⟩
  intro cmd h
  cases cmd <;> first | rfl | simp [carriesPayload] at h

/-- C3, witness: a concrete stored payload survives verbatim and a concrete
read command yields the empty body. -/
theorem c3_witness :
    extractContent (.putObject [7, 8]) = [7, 8]
    ∧ extractContent .getObject = [] :=
  ⟨c3_payload_extraction.1 [7, 8], c3_payload_extraction.2.2.2.2 .getObject rfl⟩

/-- C4, counterexample: with a header whose name holds a space, the call
does not return an error to the caller (it panics at the unwrap of
HeaderName::from_bytes), refuting the claim that a malformed header fails
with an InvalidHeaderError returned to the caller. -/
theorem c4_counterexample :
    (response false (.ok badNameHeaders) .getObject (.ok sampleResp)).1.isErr
        = false
    ∧ (response false (.ok badNameHeaders) .getObject (.ok sampleResp)).2
        = [] := by decide

/-- C4, amended: when some header produced by the signing collaborator has
a name or value that is not wire-representable, the call aborts by a Rust
panic before any bytes are sent (the trace of requests handed to the
transport is empty), rather than returning an InvalidHeaderError. -/
theorem c4_invalid_header_panics :
    ∀ strict hres cmd wire (hs : List (String × String)),
    hres = .ok hs →
    (∃ p ∈ hs, validHeaderName p.1 = false ∨ validHeaderValue p.2 = false) →
    ∃ m, response strict hres cmd wire = (.panic m, []) := by
  intro strict hres cmd wire hs heq hbad
  subst heq
  obtain ⟨m, hm⟩ := attachHeaders_some_of_invalid hs hbad
  exact ⟨m, by simp [response, hm]⟩

/-- C4, witness: at the concrete bad header list the call ends in a panic
with an empty trace of sent requests. -/
theorem c4_witness :
    ∃ m, response false (.ok badNameHeaders) .getObject (.ok sampleResp)
      = (.panic m, []) :=
  c4_invalid_header_panics false (.ok badNameHeaders) .getObject
    (.ok sampleResp) badNameHeaders rfl
    ⟨("bad name", "v"), by decide, Or.inl (by decide)⟩

/-- C5: the verb table of the transport invoker is fixed and exhaustive,
sending Get to GET, Delete to DELETE, Put to PUT, Post to POST and Head
to HEAD; and every request the response primitive hands to the transport
uses exactly the method the table assigns to the verb of its command, on
every call. -/
theorem c5_verb_table :
    (methodOf .get = .GET ∧ methodOf .delete = .DELETE
      ∧ methodOf .put = .PUT ∧ methodOf .post = .POST
      ∧ methodOf .head = .HEAD)
    ∧ (∀ strict hres cmd wire s,
        s ∈ (response strict hres cmd wire).2 →
        s.method = methodOf cmd.http_verb) := by
  refine ⟨⟨rfl, rfl, rfl, rfl, rfl⟩, ?_⟩
  intro strict hres cmd wire s hmem
  cases hres with
  | error e => simp [response] at hmem
  | ok hs =>
    cases hat : attachHeaders hs with
    | some m => simp [response, hat] at hmem
    | none =>
      cases wire with
      | error e =>
        simp [response, hat] at hmem
        rw [hmem]
      | ok r =>
        by_cases hstrict : strict = true ∧ 400 ≤ r.status
        · simp [response, hat, hstrict] at hmem
          rw [hmem]
        · simp [response, hat] at hmem
          rw [if_neg hstrict] at hmem
          simp at hmem
          rw [hmem]

/-- C5, witness: the single request sent for a concrete GetObject call uses
the GET transport method assigned by the table. -/
theorem c5_witness :
    (⟨.GET, [], []⟩ : SentRequest).method = methodOf Command.getObject.http_verb :=
  c5_verb_table.2 false (.ok []) .getObject (.ok sampleResp)
    ⟨.GET, [], []⟩ (by decide)

/-- C6: response_data_to_writer writes to the caller sink at most once on
every input; and whenever the response primitive yields a response, the
whole body is already buffered and handed to the sink in exactly one
write call, the call returns the status code when the sink accepts the
write, and fails with the sink error when the sink rejects it, the body
having been fully read either way. -/
theorem c6_writer_single_write :
    ∀ strict hres cmd wire sink,
    ((response_data_to_writer strict hres cmd wire sink).2.2).length ≤ 1
    ∧ (∀ r tr, response strict hres cmd wire = (.ok r, tr) →
        (response_data_to_writer strict hres cmd wire sink).2.2 = [r.body]
        ∧ (sink r.body = .ok () →
            (response_data_to_writer strict hres cmd wire sink).1 = .ok r.status)
        ∧ (∀ e, sink r.body = .error e →
            (response_data_to_writer strict hres cmd wire sink).1
              = .err ⟨some e, none⟩)) := by
  intro strict hres cmd wire sink
  constructor
  · rcases hr : response strict hres cmd wire with ⟨o, tr⟩
    cases o with
    | ok r =>
      cases hw : sink r.body with
      | ok u => simp [response_data_to_writer, hr, hw]
      | error e => simp [response_data_to_writer, hr, hw]
    | err e => simp [response_data_to_writer, hr]
    | panic m => simp [response_data_to_writer, hr]
  · intro r tr hr
    refine ⟨?_, ?_, ?_⟩
    · cases hw : sink r.body with
      | ok u => simp [response_data_to_writer, hr, hw]
      | error e => simp [response_data_to_writer, hr, hw]
    · intro hw
      simp [response_data_to_writer, hr, hw]
    · intro e hw
      simp [response_data_to_writer, hr, hw]

/-- C6, witness: at a concrete response the accepting sink receives exactly
one write of the full body and the call returns status 200; the
rejecting sink makes the call fail with its error after the same single
write. -/
theorem c6_witness :
    (response_data_to_writer false (.ok []) .getObject (.ok sampleResp)
        okSink).2.2 = [strBytes "hello"]
    ∧ (response_data_to_writer false (.ok []) .getObject (.ok sampleResp)
        okSink).1 = .ok 200
    ∧ (response_data_to_writer false (.ok []) .getObject (.ok sampleResp)
        failSink).1 = .err ⟨some "sink closed", none⟩ :=
  ⟨((c6_writer_single_write false (.ok []) .getObject (.ok sampleResp)
      okSink).2 sampleResp [⟨.GET, [], []⟩] (by decide)).1,
    ((c6_writer_single_write false (.ok []) .getObject (.ok sampleResp)
      okSink).2 sampleResp [⟨.GET, [], []⟩] (by decide)).2.1 rfl,
    ((c6_writer_single_write false (.ok []) .getObject (.ok sampleResp)
      failSink).2 sampleResp [⟨.GET, [], []⟩] (by decide)).2.2
      "sink closed" rfl⟩

/-- C7: whenever the response primitive yields a response, response_header
returns the full header collection unchanged together with the status
code; and its outcome depends only on the headers and status of the
yielded response, never on its body bytes. -/
theorem c7_headers_only :
    (∀ strict hres cmd wire r tr,
      response strict hres cmd wire = (.ok r, tr) →
      response_header strict hres cmd wire = (.ok (r.headers, r.status), tr))
    ∧ (∀ strict hres cmd wire wire2 r r2 tr tr2,
      response strict hres cmd wire = (.ok r, tr) →
      response strict hres cmd wire2 = (.ok r2, tr2) →
      r.headers = r2.headers → r.status = r2.status →
      (response_header strict hres cmd wire).1
        = (response_header strict hres cmd wire2).1) := by
  constructor
  · intro strict hres cmd wire r tr hr
    simp [response_header, hr]
  · intro strict hres cmd wire wire2 r r2 tr tr2 hr hr2 hh hs
    simp [response_header, hr, hr2, hh, hs]

/-- C7, witness: at a concrete response the headers come back unchanged
with status 200. -/
theorem c7_witness :
    response_header false (.ok []) .getObject (.ok sampleResp)
      = (.ok ([("ETag", strBytes "abc123")], 200), [⟨.GET, [], []⟩]) :=
  c7_headers_only.1 false (.ok []) .getObject (.ok sampleResp)
    sampleResp [⟨.GET, [], []⟩] (by decide)

/-- C8: each of the three caller-facing operations performs exactly the
sends of its single call to the response primitive (its trace of sent
requests is that of response, never more), and when the headers are
produced and attached successfully that trace holds exactly one request,
so each logical call performs exactly one HTTP request and the failure
policy check runs exactly once, with no response cached across calls. -/
theorem c8_single_request :
    ∀ strict hres cmd wire etag sink,
    (response_data strict hres cmd wire etag).2
        = (response strict hres cmd wire).2
    ∧ (response_data_to_writer strict hres cmd wire sink).2.1
        = (response strict hres cmd wire).2
    ∧ (response_header strict hres cmd wire).2
        = (response strict hres cmd wire).2
    ∧ (∀ hs : List (String × String), hres = .ok hs → attachHeaders hs = none →
        ((response strict hres cmd wire).2).length = 1) := by
  intro strict hres cmd wire etag sink
  rcases hr : response strict hres cmd wire with ⟨o, tr⟩
  refine ⟨?_, ?_, ?_, ?_⟩
  · cases o with
    | ok r =>
      cases hget : headerGet r.headers "ETag" with
      | none => cases etag <;> simp [response_data, hr, hget]
      | some v =>
        cases hstr : toStr v with
        | none => cases etag <;> simp [response_data, hr, hget, hstr]
        | some s => cases etag <;> simp [response_data, hr, hget, hstr]
    | err e => simp [response_data, hr]
    | panic m => simp [response_data, hr]
  · cases o with
    | ok r =>
      cases hw : sink r.body with
      | ok u => simp [response_data_to_writer, hr, hw]
      | error e => simp [response_data_to_writer, hr, hw]
    | err e => simp [response_data_to_writer, hr]
    | panic m => simp [response_data_to_writer, hr]
  · cases o with
    | ok r => simp [response_header, hr]
    | err e => simp [response_header, hr]
    | panic m => simp [response_header, hr]
  · intro hs heq hat
    subst heq
    have htr : tr = (response strict (.ok hs) cmd wire).2 := by rw [hr]
    rw [htr]
    cases wire with
    | error e => simp [response, hat]
    | ok r =>
      simp only [response, hat]
      split <;> simp

/-- C8, witness: at a concrete call the buffered-body operation shares the
trace of its one response call, and that trace holds exactly one sent
request. -/
theorem c8_witness :
    (response_data false (.ok []) .getObject (.ok sampleResp) false).2
        = (response false (.ok []) .getObject (.ok sampleResp)).2
    ∧ ((response false (.ok []) .getObject (.ok sampleResp)).2).length = 1 :=
  ⟨(c8_single_request false (.ok []) .getObject (.ok sampleResp) false
      okSink).1,
    (c8_single_request false (.ok []) .getObject (.ok sampleResp) false
      okSink).2.2.2 [] rfl rfl⟩

/-- C9: a region with no explicit scheme yields a URL with the secure
scheme https, and a region carrying an explicit http override (as parsed
from a region string starting with http) yields the http scheme, in both
virtual-host style and path style. -/
theorem c9_url_scheme :
    (∀ (name host path : String) (ps : Bool),
      (bucketUrl ⟨name, ⟨none, host⟩, ps⟩ path).scheme = "https")
    ∧ (∀ (name host path : String) (ps : Bool),
      (bucketUrl ⟨name, parseRegion ("http://" ++ host), ps⟩ path).scheme
        = "http") := by
  constructor
  · intro name host path ps
    rfl
  · intro name host path ps
    have hpre : ("http://".data).isPrefixOf (("http://" ++ host).data) = true := by
      rw [String.data_append, List.isPrefixOf_iff_prefix]
      exact List.prefix_append _ _
    simp [parseRegion, hpre, bucketUrl]

end RustS3
